import Mathlib

/-
Verification of the Intcode virtual machine of the AoC-2019 repository.

The repository re-derives the same VM in each dayNN/src/main.rs at growing
capability levels.  The embeddings below are translated from those sources:

* shared pieces (the Op/Cmd/RegMode/State enums, get_cmd, get_mode, the
  VecDeque i/o queues, the 1,000,000-cell tape) are duplicated verbatim
  across the day sources and are defined once here;
* Day07: src/day07/src/main.rs — load_program does not touch bp, write
  targets are used raw (no relative adjustment), Op::In panics on an empty
  queue, the instruction pointer is advanced before execute_cmd;
* Day09: src/day09/src/main.rs — relative-base machine, pointer advanced
  before execute_cmd, Op::In panics on an empty queue;
* Day11: src/day11/src/main.rs — pointer advanced at the end of
  execute_cmd (jumps, halt and the empty-input suspension return early),
  Op::In suspends (state := Ready) on an empty queue;
* Day23: src/day23/src/main.rs — adds the Network CpuMode (polling input
  that substitutes -1, output counter that suspends every third output)
  and the run_network orchestration with the NAT.

Machine integers: all Words are i64 in the source; arithmetic in the
programs considered here stays far from overflow, so Words are modelled as
Int.  The casts `as usize` that the source performs on addresses are
modelled explicitly (usizeOf), and every tape access carries the source's
bounds behaviour: indexing outside the 1,000,000-cell tape is a Rust
panic, modelled as none.  Panics (expect / invalid opcode / invalid mode
digit) are modelled as none throughout; the unbounded `loop` of run is
modelled with explicit fuel (fuel exhaustion also gives none).

The Rust Cpu struct carries two scratch banks, reg and reg_mode.  Every
decode cycle overwrites slots 0..n_operands of both banks before
execute_cmd reads any of them, and execute_cmd only reads slots
0..n_operands, so the banks hold no state that survives a cycle; they are
modelled as the per-cycle lists ms (modes) and regs (operand values).
-/

namespace AoC2019

/-- Fixed tape capacity: every Cpu::new resizes memory to 1,000,000 cells. -/
def memSize : Nat := 1000000

/-- The Rust cast i64-to-usize: reinterpret the value modulo 2 to the 64. -/
def usizeOf (a : Int) : Nat := (a % (2 : Int) ^ 64).toNat

/-- Read tape cell a; indexing outside the fixed capacity panics (none). -/
def memRead (mem : Nat → Int) (a : Nat) : Option Int :=
  if a < memSize then some (mem a) else none

/-- Store v at tape cell a; indexing outside the fixed capacity panics (none). -/
def memWrite (mem : Nat → Int) (a : Nat) (v : Int) : Option (Nat → Int) :=
  if a < memSize then some (fun i => if i = a then v else mem i) else none

/-- The tape produced by load_program: memory.fill(0) followed by
copy_from_slice of the program at address 0. -/
def loadMem (program : List Int) : Nat → Int := fun i => program.getD i 0

/-- A VecDeque of Words, modelled back to front: the head of the list is the
back of the deque, the end that pop_back removes.  push_front therefore
appends at the end of the list, and FIFO order is list order. -/
def pushFront (q : List Int) (x : Int) : List Int := q ++ [x]

/-- pop_back of the deque: the sources call .expect on the result, so an
empty deque is a panic (none). -/
def popBack (q : List Int) : Option (Int × List Int) :=
  match q with
  | [] => none
  | x :: rest => some (x, rest)

/-- Push a whole list of values, one push_front at a time. -/
def pushAll (q : List Int) (xs : List Int) : List Int := xs.foldl pushFront q

/-- The ten opcodes of the instruction table (identical in every day source). -/
inductive Op
  | Add | Mul | In | Out | Jnz | Jz | Lt | Cmp | AdjBp | Hlt
  deriving DecidableEq, Repr

/-- Decoded command: opcode, operand count and write flag, per the fixed
table in get_cmd. -/
structure Cmd where
  op : Op
  n_operands : Nat
  writes : Bool
  deriving DecidableEq, Repr

/-- Addressing modes: position, immediate, relative. -/
inductive RegMode
  | Pos | Imm | Rel
  deriving DecidableEq, Repr

/-- Machine lifecycle states. -/
inductive State
  | Active | Ready | Halted
  deriving DecidableEq, Repr

/-- get_cmd: the low two decimal digits (Rust % on i64 is truncated
remainder, Int.tmod) select the command from the fixed table; anything
else is an invalid opcode (the callers .expect on the result, a panic). -/
def getCmd (instruction : Int) : Option Cmd :=
  match instruction.tmod 100 with
  | 1 => some ⟨Op.Add, 3, true⟩
  | 2 => some ⟨Op.Mul, 3, true⟩
  | 3 => some ⟨Op.In, 1, true⟩
  | 4 => some ⟨Op.Out, 1, false⟩
  | 5 => some ⟨Op.Jnz, 2, false⟩
  | 6 => some ⟨Op.Jz, 2, false⟩
  | 7 => some ⟨Op.Lt, 3, true⟩
  | 8 => some ⟨Op.Cmp, 3, true⟩
  | 9 => some ⟨Op.AdjBp, 1, false⟩
  | 99 => some ⟨Op.Hlt, 0, false⟩
  | _ => none

/-- One addressing-mode digit; any digit other than 0, 1, 2 panics. -/
def decodeMode (digit : Int) : Option RegMode :=
  match digit with
  | 0 => some RegMode.Pos
  | 1 => some RegMode.Imm
  | 2 => some RegMode.Rel
  | _ => none

/-- The loop body of get_mode: peel one decimal digit per operand slot,
least significant first (Rust % and / on i64 truncate, tmod and tdiv). -/
def getModesAux (digits : Int) : Nat → Option (List RegMode)
  | 0 => some []
  | Nat.succ k => do
      let md ← decodeMode (digits.tmod 10)
      let rest ← getModesAux (digits.tdiv 10) k
      pure (md :: rest)

/-- get_mode: fill one addressing mode per operand slot from the digits of
instruction / 100. -/
def getMode (instruction : Int) (n_operands : Nat) : Option (List RegMode) :=
  getModesAux (instruction.tdiv 100) n_operands

/-- The operand-fetch loop of run: reg[i] = memory[ip + i + 1]; this reads
the n cells starting at address a. -/
def readRaws (mem : Nat → Int) : Nat → Nat → Option (List Int)
  | _, 0 => some []
  | a, Nat.succ k => do
      let r ← memRead mem a
      let rest ← readRaws mem (a + 1) k
      pure (r :: rest)

/-- One step of the resolve loop at the top of execute_cmd: position mode
reads tape[raw as usize], immediate keeps raw, relative reads
tape[(bp + raw) as usize]. -/
def resolveRead (mem : Nat → Int) (bp : Int) (md : RegMode) (raw : Int) : Option Int :=
  match md with
  | RegMode.Pos => memRead mem (usizeOf raw)
  | RegMode.Imm => some raw
  | RegMode.Rel => memRead mem (usizeOf (bp + raw))

/-- The resolve loop of execute_cmd: for i in 0..(n_operands - boundary)
the slot is replaced by its resolved value; the remaining slots (the write
target, when boundary = 1) keep their raw operand. -/
def resolveRegs (mem : Nat → Int) (bp : Int) :
    List RegMode → List Int → Nat → Option (List Int)
  | _, raws, 0 => some raws
  | md :: ms, raw :: raws, Nat.succ k => do
      let v ← resolveRead mem bp md raw
      let rest ← resolveRegs mem bp ms raws k
      pure (v :: rest)
  | [], _, Nat.succ _ => none
  | _ :: _, [], Nat.succ _ => none

/-- The write-target store of day09/day11/day23 execute_cmd: when the
target mode is relative the raw operand is first offset by the base
pointer (reg += bp), otherwise (position or immediate) the raw operand is
the address; the value is stored at that address cast to usize. -/
def writeTarget (mem : Nat → Int) (bp : Int) (md : RegMode) (raw : Int) (v : Int) :
    Option (Nat → Int) :=
  match md with
  | RegMode.Rel => memWrite mem (usizeOf (bp + raw)) v
  | _ => memWrite mem (usizeOf raw) v

/-- Cpu modes of day07/day09/day11 (day23 has its own, below). -/
inductive CpuMode
  | Normal | BreakOnOutput
  deriving DecidableEq, Repr

/-- The Cpu struct shared by day07/day09/day11 (and days 15/17/19): tape,
instruction pointer, base pointer, the two FIFO queues, mode and state.
The reg and reg_mode scratch banks are per-cycle values (see the comment
at the top of the file). -/
structure Cpu where
  ip : Nat
  bp : Int
  mem : Nat → Int
  io_in : List Int
  io_out : List Int
  mode : CpuMode
  state : State

/-- Cpu::new: zeroed tape of fixed capacity, empty queues, Normal mode,
Halted state. -/
def Cpu.new : Cpu :=
  { ip := 0, bp := 0, mem := fun _ => 0, io_in := [], io_out := [],
    mode := CpuMode.Normal, state := State.Halted }

/-- The shared shape of every day's run loop: set state to Active, then
step until a cycle leaves the state not Active.  Fuel bounds the number of
cycles; fuel exhaustion is none. -/
def runLoop {α : Type} (stepF : α → Option α) (stateOf : α → State) :
    Nat → α → Option α
  | 0, _ => none
  | Nat.succ fuel, m => do
      let m2 ← stepF m
      match stateOf m2 with
      | State.Active => runLoop stepF stateOf fuel m2
      | _ => pure m2

namespace Day07

/-- day07 load_program (src/day07/src/main.rs lines 247-254): resets ip,
clears both queues, sets state Ready, zero-fills the tape and copies the
program in.  It does NOT touch bp (there is no bp reset line); mode is
also kept.  Copying a program longer than the tape panics (none). -/
def load_program (cpu : Cpu) (program : List Int) : Option Cpu :=
  if program.length ≤ memSize then
    some { cpu with
      ip := 0,
      io_in := [],
      io_out := [],
      state := State.Ready,
      mem := loadMem program }
  else none

/-- day07 execute_cmd: the instruction pointer was already advanced by the
run loop, jumps overwrite it.  Write targets are used raw (day07 has no
relative adjustment of the target slot).  Op::In .expects a queue value,
so an empty input queue is a panic (none). -/
def execute_cmd (cpu : Cpu) (cmd : Cmd) (ms : List RegMode) (raws : List Int) :
    Option Cpu := do
  let boundary := if cmd.writes then 1 else 0
  let regs ← resolveRegs cpu.mem cpu.bp ms raws (cmd.n_operands - boundary)
  match cmd.op with
  | Op.Add => do
      let mem2 ← memWrite cpu.mem (usizeOf (regs.getD 2 0)) (regs.getD 0 0 + regs.getD 1 0)
      pure { cpu with mem := mem2 }
  | Op.Mul => do
      let mem2 ← memWrite cpu.mem (usizeOf (regs.getD 2 0)) (regs.getD 0 0 * regs.getD 1 0)
      pure { cpu with mem := mem2 }
  | Op.In => do
      let (x, rest) ← popBack cpu.io_in
      let mem2 ← memWrite cpu.mem (usizeOf (regs.getD 0 0)) x
      pure { cpu with mem := mem2, io_in := rest }
  | Op.Out =>
      let st := if cpu.mode = CpuMode.BreakOnOutput then State.Ready else cpu.state
      pure { cpu with io_out := pushFront cpu.io_out (regs.getD 0 0), state := st }
  | Op.Jnz =>
      if regs.getD 0 0 ≠ 0 then pure { cpu with ip := usizeOf (regs.getD 1 0) } else pure cpu
  | Op.Jz =>
      if regs.getD 0 0 = 0 then pure { cpu with ip := usizeOf (regs.getD 1 0) } else pure cpu
  | Op.Lt => do
      let mem2 ← memWrite cpu.mem (usizeOf (regs.getD 2 0))
        (if regs.getD 0 0 < regs.getD 1 0 then 1 else 0)
      pure { cpu with mem := mem2 }
  | Op.Cmp => do
      let mem2 ← memWrite cpu.mem (usizeOf (regs.getD 2 0))
        (if regs.getD 0 0 = regs.getD 1 0 then 1 else 0)
      pure { cpu with mem := mem2 }
  | Op.AdjBp => pure { cpu with bp := cpu.bp + regs.getD 0 0 }
  | Op.Hlt => pure { cpu with state := State.Halted }

/-- One iteration of the day07 run_cpu loop: decode at ip, fetch modes and
raw operands, advance ip past the instruction, then execute. -/
def step (cpu : Cpu) : Option Cpu := do
  let instruction ← memRead cpu.mem cpu.ip
  let cmd ← getCmd instruction
  let ms ← getMode instruction cmd.n_operands
  let raws ← readRaws cpu.mem (cpu.ip + 1) cmd.n_operands
  execute_cmd { cpu with ip := cpu.ip + cmd.n_operands + 1 } cmd ms raws

/-- day07 run_cpu with explicit fuel. -/
def run (fuel : Nat) (cpu : Cpu) : Option Cpu :=
  runLoop step Cpu.state fuel { cpu with state := State.Active }

end Day07

namespace Day09

/-- day09 Cpu::load_program (lines 80-88): resets ip AND bp, clears both
queues, sets Ready, zero-fills the tape and copies the program in. -/
def load_program (cpu : Cpu) (program : List Int) : Option Cpu :=
  if program.length ≤ memSize then
    some { cpu with
      ip := 0,
      bp := 0,
      io_in := [],
      io_out := [],
      state := State.Ready,
      mem := loadMem program }
  else none

/-- day09 execute_cmd (lines 239-310): pointer already advanced by the run
loop; write targets get the relative-base adjustment; Op::In .expects a
queue value (empty queue panics). -/
def execute_cmd (cpu : Cpu) (cmd : Cmd) (ms : List RegMode) (raws : List Int) :
    Option Cpu := do
  let boundary := if cmd.writes then 1 else 0
  let regs ← resolveRegs cpu.mem cpu.bp ms raws (cmd.n_operands - boundary)
  match cmd.op with
  | Op.Add => do
      let mem2 ← writeTarget cpu.mem cpu.bp (ms.getD 2 RegMode.Pos) (regs.getD 2 0)
        (regs.getD 0 0 + regs.getD 1 0)
      pure { cpu with mem := mem2 }
  | Op.Mul => do
      let mem2 ← writeTarget cpu.mem cpu.bp (ms.getD 2 RegMode.Pos) (regs.getD 2 0)
        (regs.getD 0 0 * regs.getD 1 0)
      pure { cpu with mem := mem2 }
  | Op.In => do
      let (x, rest) ← popBack cpu.io_in
      let mem2 ← writeTarget cpu.mem cpu.bp (ms.getD 0 RegMode.Pos) (regs.getD 0 0) x
      pure { cpu with mem := mem2, io_in := rest }
  | Op.Out =>
      let st := if cpu.mode = CpuMode.BreakOnOutput then State.Ready else cpu.state
      pure { cpu with io_out := pushFront cpu.io_out (regs.getD 0 0), state := st }
  | Op.Jnz =>
      if regs.getD 0 0 ≠ 0 then pure { cpu with ip := usizeOf (regs.getD 1 0) } else pure cpu
  | Op.Jz =>
      if regs.getD 0 0 = 0 then pure { cpu with ip := usizeOf (regs.getD 1 0) } else pure cpu
  | Op.Lt => do
      let mem2 ← writeTarget cpu.mem cpu.bp (ms.getD 2 RegMode.Pos) (regs.getD 2 0)
        (if regs.getD 0 0 < regs.getD 1 0 then 1 else 0)
      pure { cpu with mem := mem2 }
  | Op.Cmp => do
      let mem2 ← writeTarget cpu.mem cpu.bp (ms.getD 2 RegMode.Pos) (regs.getD 2 0)
        (if regs.getD 0 0 = regs.getD 1 0 then 1 else 0)
      pure { cpu with mem := mem2 }
  | Op.AdjBp => pure { cpu with bp := cpu.bp + regs.getD 0 0 }
  | Op.Hlt => pure { cpu with state := State.Halted }

/-- One iteration of the day09 Cpu::run loop (lines 102-124). -/
def step (cpu : Cpu) : Option Cpu := do
  let instruction ← memRead cpu.mem cpu.ip
  let cmd ← getCmd instruction
  let ms ← getMode instruction cmd.n_operands
  let raws ← readRaws cpu.mem (cpu.ip + 1) cmd.n_operands
  execute_cmd { cpu with ip := cpu.ip + cmd.n_operands + 1 } cmd ms raws

/-- day09 Cpu::run with explicit fuel. -/
def run (fuel : Nat) (cpu : Cpu) : Option Cpu :=
  runLoop step Cpu.state fuel { cpu with state := State.Active }

end Day09

namespace Day11

/-- day11 Cpu::load_program (lines 93-101): identical to day09, resets ip
and bp, clears queues, Ready, zero-fill and copy. -/
def load_program (cpu : Cpu) (program : List Int) : Option Cpu :=
  if program.length ≤ memSize then
    some { cpu with
      ip := 0,
      bp := 0,
      io_in := [],
      io_out := [],
      state := State.Ready,
      mem := loadMem program }
  else none

/-- day11 Cpu::execute_cmd (lines 130-212): the pointer is advanced at the
END of execute_cmd; jumps, halt and the empty-queue input suspension
return early and so skip the advance.  Op::In with an empty input queue
only sets state := Ready and returns: pointer, tape and both queues are
untouched. -/
def execute_cmd (cpu : Cpu) (cmd : Cmd) (ms : List RegMode) (raws : List Int) :
    Option Cpu := do
  let boundary := if cmd.writes then 1 else 0
  let regs ← resolveRegs cpu.mem cpu.bp ms raws (cmd.n_operands - boundary)
  let adv := cpu.ip + cmd.n_operands + 1
  match cmd.op with
  | Op.Add => do
      let mem2 ← writeTarget cpu.mem cpu.bp (ms.getD 2 RegMode.Pos) (regs.getD 2 0)
        (regs.getD 0 0 + regs.getD 1 0)
      pure { cpu with mem := mem2, ip := adv }
  | Op.Mul => do
      let mem2 ← writeTarget cpu.mem cpu.bp (ms.getD 2 RegMode.Pos) (regs.getD 2 0)
        (regs.getD 0 0 * regs.getD 1 0)
      pure { cpu with mem := mem2, ip := adv }
  | Op.In =>
      match cpu.io_in with
      | [] => pure { cpu with state := State.Ready }
      | x :: rest => do
          let mem2 ← writeTarget cpu.mem cpu.bp (ms.getD 0 RegMode.Pos) (regs.getD 0 0) x
          pure { cpu with mem := mem2, io_in := rest, ip := adv }
  | Op.Out =>
      let st := if cpu.mode = CpuMode.BreakOnOutput then State.Ready else cpu.state
      pure { cpu with io_out := pushFront cpu.io_out (regs.getD 0 0), state := st, ip := adv }
  | Op.Jnz =>
      if regs.getD 0 0 ≠ 0 then pure { cpu with ip := usizeOf (regs.getD 1 0) }
      else pure { cpu with ip := adv }
  | Op.Jz =>
      if regs.getD 0 0 = 0 then pure { cpu with ip := usizeOf (regs.getD 1 0) }
      else pure { cpu with ip := adv }
  | Op.Lt => do
      let mem2 ← writeTarget cpu.mem cpu.bp (ms.getD 2 RegMode.Pos) (regs.getD 2 0)
        (if regs.getD 0 0 < regs.getD 1 0 then 1 else 0)
      pure { cpu with mem := mem2, ip := adv }
  | Op.Cmp => do
      let mem2 ← writeTarget cpu.mem cpu.bp (ms.getD 2 RegMode.Pos) (regs.getD 2 0)
        (if regs.getD 0 0 = regs.getD 1 0 then 1 else 0)
      pure { cpu with mem := mem2, ip := adv }
  | Op.AdjBp => pure { cpu with bp := cpu.bp + regs.getD 0 0, ip := adv }
  | Op.Hlt => pure { cpu with state := State.Halted }

/-- One iteration of the day11 Cpu::run loop (lines 214-234). -/
def step (cpu : Cpu) : Option Cpu := do
  let instruction ← memRead cpu.mem cpu.ip
  let cmd ← getCmd instruction
  let ms ← getMode instruction cmd.n_operands
  let raws ← readRaws cpu.mem (cpu.ip + 1) cmd.n_operands
  execute_cmd cpu cmd ms raws

/-- day11 Cpu::run with explicit fuel. -/
def run (fuel : Nat) (cpu : Cpu) : Option Cpu :=
  runLoop step Cpu.state fuel { cpu with state := State.Active }

end Day11

namespace Day23

/-- day23 CpuMode: Normal (blocking input as in day11) or Network with its
output counter.  The source also has ReadChar, which reads the interactive
terminal; run_network never uses it and it performs real IO, so it is not
part of this model. -/
inductive CpuMode
  | Normal
  | Network (count : Int)
  deriving DecidableEq, Repr

/-- The day23 Cpu struct; same fields as the shared one but with the day23
mode type. -/
structure Cpu where
  ip : Nat
  bp : Int
  mem : Nat → Int
  io_in : List Int
  io_out : List Int
  mode : CpuMode
  state : State

/-- day23 Cpu::new. -/
def Cpu.new : Cpu :=
  { ip := 0, bp := 0, mem := fun _ => 0, io_in := [], io_out := [],
    mode := CpuMode.Normal, state := State.Halted }

/-- day23 Cpu::load_program (lines 95-103): resets ip and bp, clears
queues, Ready, zero-fill and copy; mode is kept. -/
def load_program (cpu : Cpu) (program : List Int) : Option Cpu :=
  if program.length ≤ memSize then
    some { cpu with
      ip := 0,
      bp := 0,
      io_in := [],
      io_out := [],
      state := State.Ready,
      mem := loadMem program }
  else none

/-- day23 Cpu::execute_cmd (lines 132-237).  Pointer advanced at the end;
jumps, halt and the Normal-mode empty-input suspension return early.
Op::In in Network mode substitutes -1 and sets Ready when the queue is
empty but still stores and advances; Op::Out in Network mode steps the
output counter 0 to 1 to 2, and on the third output resets it to 0 and
sets Ready; a counter outside 0..2 panics. -/
def execute_cmd (cpu : Cpu) (cmd : Cmd) (ms : List RegMode) (raws : List Int) :
    Option Cpu := do
  let boundary := if cmd.writes then 1 else 0
  let regs ← resolveRegs cpu.mem cpu.bp ms raws (cmd.n_operands - boundary)
  let adv := cpu.ip + cmd.n_operands + 1
  match cmd.op with
  | Op.Add => do
      let mem2 ← writeTarget cpu.mem cpu.bp (ms.getD 2 RegMode.Pos) (regs.getD 2 0)
        (regs.getD 0 0 + regs.getD 1 0)
      pure { cpu with mem := mem2, ip := adv }
  | Op.Mul => do
      let mem2 ← writeTarget cpu.mem cpu.bp (ms.getD 2 RegMode.Pos) (regs.getD 2 0)
        (regs.getD 0 0 * regs.getD 1 0)
      pure { cpu with mem := mem2, ip := adv }
  | Op.In =>
      match cpu.mode with
      | CpuMode.Network _ =>
          match cpu.io_in with
          | [] => do
              let mem2 ← writeTarget cpu.mem cpu.bp (ms.getD 0 RegMode.Pos) (regs.getD 0 0) (-1)
              pure { cpu with mem := mem2, state := State.Ready, ip := adv }
          | x :: rest => do
              let mem2 ← writeTarget cpu.mem cpu.bp (ms.getD 0 RegMode.Pos) (regs.getD 0 0) x
              pure { cpu with mem := mem2, io_in := rest, ip := adv }
      | CpuMode.Normal =>
          match cpu.io_in with
          | [] => pure { cpu with state := State.Ready }
          | x :: rest => do
              let mem2 ← writeTarget cpu.mem cpu.bp (ms.getD 0 RegMode.Pos) (regs.getD 0 0) x
              pure { cpu with mem := mem2, io_in := rest, ip := adv }
  | Op.Out =>
      let outed := pushFront cpu.io_out (regs.getD 0 0)
      match cpu.mode with
      | CpuMode.Normal => pure { cpu with io_out := outed, ip := adv }
      | CpuMode.Network count =>
          if count = 0 then
            pure { cpu with io_out := outed, mode := CpuMode.Network 1, ip := adv }
          else if count = 1 then
            pure { cpu with io_out := outed, mode := CpuMode.Network 2, ip := adv }
          else if count = 2 then
            pure { cpu with io_out := outed, mode := CpuMode.Network 0,
                            state := State.Ready, ip := adv }
          else none
  | Op.Jnz =>
      if regs.getD 0 0 ≠ 0 then pure { cpu with ip := usizeOf (regs.getD 1 0) }
      else pure { cpu with ip := adv }
  | Op.Jz =>
      if regs.getD 0 0 = 0 then pure { cpu with ip := usizeOf (regs.getD 1 0) }
      else pure { cpu with ip := adv }
  | Op.Lt => do
      let mem2 ← writeTarget cpu.mem cpu.bp (ms.getD 2 RegMode.Pos) (regs.getD 2 0)
        (if regs.getD 0 0 < regs.getD 1 0 then 1 else 0)
      pure { cpu with mem := mem2, ip := adv }
  | Op.Cmp => do
      let mem2 ← writeTarget cpu.mem cpu.bp (ms.getD 2 RegMode.Pos) (regs.getD 2 0)
        (if regs.getD 0 0 = regs.getD 1 0 then 1 else 0)
      pure { cpu with mem := mem2, ip := adv }
  | Op.AdjBp => pure { cpu with bp := cpu.bp + regs.getD 0 0, ip := adv }
  | Op.Hlt => pure { cpu with state := State.Halted }

/-- One iteration of the day23 Cpu::run loop (lines 239-259). -/
def step (cpu : Cpu) : Option Cpu := do
  let instruction ← memRead cpu.mem cpu.ip
  let cmd ← getCmd instruction
  let ms ← getMode instruction cmd.n_operands
  let raws ← readRaws cpu.mem (cpu.ip + 1) cmd.n_operands
  execute_cmd cpu cmd ms raws

/-- day23 Cpu::run with explicit fuel. -/
def run (fuel : Nat) (cpu : Cpu) : Option Cpu :=
  runLoop step Cpu.state fuel { cpu with state := State.Active }

/-- The in-pass accumulator of run_network: the nic array, the packet held
by the NAT, and the is_idle flag. -/
structure PassAcc where
  nics : List Cpu
  nat_packet : Int × Int
  is_idle : Bool

/-- Service one nic of the run_network loop (lines 476-507): run it; if
its output queue is nonempty, clear the idle flag and pop one triple
(dest, x, y); a triple addressed to 255 replaces the packet held by the
NAT, any other triple pushes x then y onto the destination nic's input
queue (an out-of-range destination index is a panic). -/
def serviceNic (fuel : Nat) (acc : PassAcc) (i : Nat) : Option PassAcc := do
  let nic ← acc.nics.get? i
  let ran ← run fuel nic
  let nics1 := acc.nics.set i ran
  match popBack ran.io_out with
  | none => pure { acc with nics := nics1 }
  | some (dest, q1) => do
      let (x, q2) ← popBack q1
      let (y, q3) ← popBack q2
      let nics2 := nics1.set i { ran with io_out := q3 }
      if dest = 255 then
        pure { nics := nics2, nat_packet := (x, y), is_idle := false }
      else do
        let tgt ← nics2.get? (usizeOf dest)
        let nics3 := nics2.set (usizeOf dest)
          { tgt with io_in := pushFront (pushFront tgt.io_in x) y }
        pure { nics := nics3, nat_packet := acc.nat_packet, is_idle := false }

/-- The whole network state between rounds of the run_network loop. -/
structure NetState where
  nics : List Cpu
  nat_packet : Int × Int
  prev_nat : Int × Int
  is_idle : Bool

/-- One servicing pass over all 50 nics. -/
def netPass (fuel : Nat) (s : NetState) : Option PassAcc :=
  (List.range 50).foldlM (serviceNic fuel)
    { nics := s.nics, nat_packet := s.nat_packet, is_idle := s.is_idle }

/-- One iteration of the outer run_network loop (lines 475-520): service
all 50 nics; if the pass left the idle flag set, push the NAT packet (x
then y) onto nic 0's input queue, and terminate reporting y when the
packet equals the previous NAT delivery, otherwise record it as the
previous delivery; the idle flag is raised again at the end of every
iteration.  Sum.inl v is the terminating return, Sum.inr is the state
carried into the next iteration. -/
def netRound (fuel : Nat) (s : NetState) : Option (Int ⊕ NetState) := do
  let acc ← netPass fuel s
  if acc.is_idle then do
    let nic0 ← acc.nics.get? 0
    let nics2 := acc.nics.set 0
      { nic0 with io_in := pushFront (pushFront nic0.io_in acc.nat_packet.1) acc.nat_packet.2 }
    if acc.nat_packet = s.prev_nat then
      pure (Sum.inl acc.nat_packet.2)
    else
      pure (Sum.inr { nics := nics2, nat_packet := acc.nat_packet,
                      prev_nat := acc.nat_packet, is_idle := true })
  else
    pure (Sum.inr { nics := acc.nics, nat_packet := acc.nat_packet,
                    prev_nat := s.prev_nat, is_idle := true })

/-- True when a round result is the terminating return of run_network. -/
def terminates (r : Int ⊕ NetState) : Bool :=
  match r with
  | Sum.inl _ => true
  | Sum.inr _ => false

/-- A nic holding the one-instruction halt program in Network mode; it
runs to Halted immediately and emits nothing.  Used by the concrete
network states below. -/
def haltNic : Cpu :=
  { ip := 0, bp := 0, mem := loadMem [99], io_in := [], io_out := [],
    mode := CpuMode.Network 0, state := State.Ready }

/-- A concrete network state: all 50 nics halt immediately so the pass
routes nothing and the idle flag stays set; the NAT holds (1, 5) and the
previous NAT delivery was (2, 5) — equal secondary values, different
primary values. -/
def natCex : NetState :=
  { nics := List.replicate 50 haltNic, nat_packet := (1, 5),
    prev_nat := (2, 5), is_idle := true }

end Day23

/-- Read-operand resolution as the specification states it: position mode
reads tape[raw], immediate mode uses raw literally, relative mode reads
tape[base + raw]. -/
def specResolveValue (mem : Nat → Int) (bp : Int) (md : RegMode) (raw : Int) : Option Int :=
  match md with
  | RegMode.Pos => memRead mem (usizeOf raw)
  | RegMode.Imm => some raw
  | RegMode.Rel => memRead mem (usizeOf (bp + raw))

/-- Write-target address as the specification states it: position mode
uses raw itself as the address, relative mode uses base + raw; immediate
mode is illegal for a write target and is left unspecified. -/
def specWriteAddr (bp : Int) (md : RegMode) (raw : Int) : Option Int :=
  match md with
  | RegMode.Pos => some raw
  | RegMode.Rel => some (bp + raw)
  | RegMode.Imm => none

/-- The add/multiply example program of the spec's concrete case 1. -/
def addMulProgram : List Int := [1, 9, 10, 3, 2, 3, 11, 0, 99, 30, 40, 50]

/-- A program whose only effect is adjusting the relative base by 5
(opcode 9 in immediate mode), then halting. -/
def adjBpProgram : List Int := [109, 5, 99]

/-- C9: the program [1,9,10,3,2,3,11,0,99,30,40,50], loaded fresh and run
to the halt state on the day09 machine, leaves 3500 at tape address 0. -/
theorem C9_addmul_leaves_3500_at_0 :
    Option.map (fun c => (c.mem 0, c.state))
      ((Day09.load_program Cpu.new addMulProgram).bind (Day09.run 5)) =
      some (3500, State.Halted) := by
  decide

/-- C1 counterexample: on the day07 machine, load, run a program that
adjusts the relative base to 5, then re-load: the relative base stays 5,
while a fresh load gives base 0 — load_program does not reset the relative
base, so the claimed full reset fails for day07. -/
theorem C1_counterexample_day07_load_keeps_bp :
    Option.map Cpu.bp
      (((Day07.load_program Cpu.new adjBpProgram).bind (Day07.run 3)).bind
        (fun c => Day07.load_program c adjBpProgram)) = some 5 ∧
    Option.map Cpu.bp (Day07.load_program Cpu.new adjBpProgram) = some 0 := by
  decide

/-- C3 counterexample: a network state that is idle and whose held NAT
packet (1, 5) has the same secondary value as the previous delivery
(2, 5); the round delivers the packet but does NOT terminate, because
run_network compares the whole pair, not only the secondary value. -/
theorem C3_counterexample_pair_compare :
    Day23.natCex.is_idle = true ∧
    Day23.natCex.nat_packet.2 = Day23.natCex.prev_nat.2 ∧
    Option.map Day23.terminates (Day23.netRound 2 Day23.natCex) = some false := by
  decide

/-- Frame facts about one day11 execute_cmd: the mode field is never
assigned, and the output queue either stays unchanged or gains exactly one
value, in which case a BreakOnOutput machine is left Ready. -/
theorem d11_exec_frame (c : Cpu) (cmd : Cmd) (ms : List RegMode) (raws : List Int) (c2 : Cpu)
    (h : Day11.execute_cmd c cmd ms raws = some c2) :
    c2.mode = c.mode ∧
    (c2.io_out = c.io_out ∨
      ∃ v, c2.io_out = pushFront c.io_out v ∧
        (c.mode = CpuMode.BreakOnOutput → c2.state = State.Ready)) := by
  obtain ⟨op, n, wr⟩ := cmd
  unfold Day11.execute_cmd at h
  obtain ⟨regs, hregs, h⟩ := Option.bind_eq_some.mp h
  cases op <;> dsimp only at h
  case Add =>
    obtain ⟨mem2, hw, h⟩ := Option.bind_eq_some.mp h
    cases h
    exact ⟨rfl, Or.inl rfl⟩
  case Mul =>
    obtain ⟨mem2, hw, h⟩ := Option.bind_eq_some.mp h
    cases h
    exact ⟨rfl, Or.inl rfl⟩
  case In =>
    split at h
    · cases h
      exact ⟨rfl, Or.inl rfl⟩
    · obtain ⟨mem2, hw, h⟩ := Option.bind_eq_some.mp h
      cases h
      exact ⟨rfl, Or.inl rfl⟩
  case Out =>
    split at h
    case isTrue hm =>
      cases h
      exact ⟨rfl, Or.inr ⟨regs.getD 0 0, rfl, fun _ => rfl⟩⟩
    case isFalse hm =>
      cases h
      exact ⟨rfl, Or.inr ⟨regs.getD 0 0, rfl, fun hc => absurd hc hm⟩⟩
  case Jnz =>
    split at h <;> (cases h; exact ⟨rfl, Or.inl rfl⟩)
  case Jz =>
    split at h <;> (cases h; exact ⟨rfl, Or.inl rfl⟩)
  case Lt =>
    obtain ⟨mem2, hw, h⟩ := Option.bind_eq_some.mp h
    cases h
    exact ⟨rfl, Or.inl rfl⟩
  case Cmp =>
    obtain ⟨mem2, hw, h⟩ := Option.bind_eq_some.mp h
    cases h
    exact ⟨rfl, Or.inl rfl⟩
  case AdjBp =>
    cases h
    exact ⟨rfl, Or.inl rfl⟩
  case Hlt =>
    cases h
    exact ⟨rfl, Or.inl rfl⟩

/-- The frame facts of d11_exec_frame lifted to one whole day11 step. -/
theorem d11_step_frame (c c2 : Cpu) (h : Day11.step c = some c2) :
    c2.mode = c.mode ∧
    (c2.io_out = c.io_out ∨
      ∃ v, c2.io_out = pushFront c.io_out v ∧
        (c.mode = CpuMode.BreakOnOutput → c2.state = State.Ready)) := by
  unfold Day11.step at h
  obtain ⟨w, hw, h⟩ := Option.bind_eq_some.mp h
  obtain ⟨cmd, hcmd, h⟩ := Option.bind_eq_some.mp h
  obtain ⟨ms, hms, h⟩ := Option.bind_eq_some.mp h
  obtain ⟨raws, hraws, h⟩ := Option.bind_eq_some.mp h
  exact d11_exec_frame c cmd ms raws c2 h

/-- The day11 run loop never changes the mode field. -/
theorem d11_runLoop_mode (fuel : Nat) :
    ∀ c c2 : Cpu, runLoop Day11.step Cpu.state fuel c = some c2 → c2.mode = c.mode := by
  induction fuel with
  | zero =>
      intro c c2 h
      simp [runLoop] at h
  | succ fuel ih =>
      intro c c2 h
      unfold runLoop at h
      obtain ⟨s, hs, h⟩ := Option.bind_eq_some.mp h
      have hf := (d11_step_frame c s hs).1
      split at h
      · exact (ih s c2 h).trans hf
      · cases h
        exact hf

/-- A day11 machine in BreakOnOutput mode emits at most one output value
per run invocation: every output transition leaves the state Ready, which
ends the run loop. -/
theorem d11_runLoop_out_bound (fuel : Nat) :
    ∀ c c2 : Cpu, c.mode = CpuMode.BreakOnOutput →
      runLoop Day11.step Cpu.state fuel c = some c2 →
      c2.io_out.length ≤ c.io_out.length + 1 := by
  induction fuel with
  | zero =>
      intro c c2 hm h
      simp [runLoop] at h
  | succ fuel ih =>
      intro c c2 hm h
      unfold runLoop at h
      obtain ⟨s, hs, h⟩ := Option.bind_eq_some.mp h
      obtain ⟨hmode, hout⟩ := d11_step_frame c s hs
      split at h
      case h_1 hactive =>
        rcases hout with hsame | ⟨v, hv, himp⟩
        · have hb := ih s c2 (hmode.trans hm) h
          rw [hsame] at hb
          exact hb
        · exact absurd (hactive.symm.trans (himp hm)) (by decide)
      case h_2 hother =>
        cases h
        rcases hout with hsame | ⟨v, hv, himp⟩
        · rw [hsame]
          omega
        · rw [hv]
          simp [pushFront]

/-- C1 (amended): load_program resets the instruction pointer, clears both
queues, zero-fills the tape, copies the program to address 0 and sets the
state Ready; the day11 Cpu::load_program also resets the relative base, so
re-loading after any run restores the identical state; day07's
load_program leaves the relative base unchanged (it resets everything
else), so its reset is only full when the base was not adjusted. -/
theorem C1_amended_load_reset :
    (∀ (m : Cpu) (p : List Int), p.length ≤ memSize →
      Day11.load_program m p =
        some { ip := 0, bp := 0, mem := loadMem p, io_in := [], io_out := [],
               mode := m.mode, state := State.Ready }) ∧
    (∀ (m m2 : Cpu) (p : List Int) (fuel : Nat),
      Day11.run fuel m = some m2 →
      Day11.load_program m2 p = Day11.load_program m p) ∧
    (∀ (m : Cpu) (p : List Int), p.length ≤ memSize →
      Day07.load_program m p =
        some { ip := 0, bp := m.bp, mem := loadMem p, io_in := [], io_out := [],
               mode := m.mode, state := State.Ready }) := by
  refine ⟨?_, ?_, ?_⟩
  · intro m p hp
    simp [Day11.load_program, hp]
  · intro m m2 p fuel h
    have hmode : m2.mode = m.mode := d11_runLoop_mode fuel { m with state := State.Active } m2 h
    simp [Day11.load_program, hmode]
  · intro m p hp
    simp [Day07.load_program, hp]

/-- Witness for C1_amended_load_reset at the one-instruction halt program. -/
theorem C1_amended_load_reset_witness :
    Day11.load_program Cpu.new [99] =
      some { ip := 0, bp := 0, mem := loadMem [99], io_in := [], io_out := [],
             mode := CpuMode.Normal, state := State.Ready } ∧
    Day11.load_program { Cpu.new with mem := loadMem [99], state := State.Halted } [99] =
      Day11.load_program { Cpu.new with mem := loadMem [99] } [99] ∧
    Day07.load_program Cpu.new [99] =
      some { ip := 0, bp := 0, mem := loadMem [99], io_in := [], io_out := [],
             mode := CpuMode.Normal, state := State.Ready } :=
  ⟨C1_amended_load_reset.1 Cpu.new [99] (by decide),
   C1_amended_load_reset.2.1 { Cpu.new with mem := loadMem [99] }
     { Cpu.new with mem := loadMem [99], state := State.Halted } [99] 1 rfl,
   C1_amended_load_reset.2.2 Cpu.new [99] (by decide)⟩

/-- C2: a day11 input instruction met with an empty input queue only sets
the state to Ready: pointer, tape and both queues are untouched, so a
resumed run retries the same instruction; and running the suspended
machine with values appended is the same as running the original machine
with those values present from the start. -/
theorem C2_input_empty_suspends (c : Cpu) (w : Int) (md : RegMode) (raw : Int)
    (hw : memRead c.mem c.ip = some w)
    (hop : w.tmod 100 = 3)
    (hms : getMode w 1 = some [md])
    (hraw : memRead c.mem (c.ip + 1) = some raw)
    (hempty : c.io_in = []) :
    Day11.step c = some { c with state := State.Ready } ∧
    ∀ (xs : List Int) (fuel : Nat),
      Day11.run fuel { c with state := State.Ready, io_in := pushAll c.io_in xs } =
      Day11.run fuel { c with io_in := pushAll c.io_in xs } := by
  constructor
  · have hcmd : getCmd w = some ⟨Op.In, 1, true⟩ := by
      unfold getCmd
      rw [hop]
      decide
    have hraws : readRaws c.mem (c.ip + 1) 1 = some [raw] := by
      simp [readRaws, hraw, Option.bind_eq_bind, Option.some_bind, Option.pure_def]
    simp only [Day11.step, hw, hcmd, hms, hraws, Option.bind_eq_bind, Option.some_bind,
      Option.pure_def]
    simp [Day11.execute_cmd, resolveRegs, hempty, Option.bind_eq_bind, Option.some_bind,
      Option.pure_def]
  · intro xs fuel
    rfl

/-- Witness for C2_input_empty_suspends on the program [3,0,99] with an
empty input queue. -/
theorem C2_input_empty_suspends_witness :
    Day11.step
      { ip := 0, bp := 0, mem := loadMem [3, 0, 99], io_in := [], io_out := [],
        mode := CpuMode.Normal, state := State.Ready } =
      some { ip := 0, bp := 0, mem := loadMem [3, 0, 99], io_in := [], io_out := [],
             mode := CpuMode.Normal, state := State.Ready } ∧
    Day11.run 3
      { ip := 0, bp := 0, mem := loadMem [3, 0, 99], io_in := pushAll [] [7], io_out := [],
        mode := CpuMode.Normal, state := State.Ready } =
      Day11.run 3
      { ip := 0, bp := 0, mem := loadMem [3, 0, 99], io_in := pushAll [] [7], io_out := [],
        mode := CpuMode.Normal, state := State.Ready } :=
  ⟨(C2_input_empty_suspends
      { ip := 0, bp := 0, mem := loadMem [3, 0, 99], io_in := [], io_out := [],
        mode := CpuMode.Normal, state := State.Ready } 3 RegMode.Pos 0
      (by decide) (by decide) (by decide) (by decide) rfl).1,
   (C2_input_empty_suspends
      { ip := 0, bp := 0, mem := loadMem [3, 0, 99], io_in := [], io_out := [],
        mode := CpuMode.Normal, state := State.Ready } 3 RegMode.Pos 0
      (by decide) (by decide) (by decide) (by decide) rfl).2 [7] 3⟩

/-- C8: on a BreakOnOutput day11 machine an output instruction enqueues
the resolved value, advances the pointer past the instruction and leaves
the state Ready; and any run invocation grows the output queue by at most
one value. -/
theorem C8_break_on_output_emits_once :
    (∀ (c : Cpu) (w : Int) (md : RegMode) (raw v : Int),
      c.mode = CpuMode.BreakOnOutput →
      memRead c.mem c.ip = some w →
      w.tmod 100 = 4 →
      getMode w 1 = some [md] →
      memRead c.mem (c.ip + 1) = some raw →
      resolveRead c.mem c.bp md raw = some v →
      Day11.step c = some { c with io_out := pushFront c.io_out v,
                                   state := State.Ready, ip := c.ip + 2 }) ∧
    (∀ (fuel : Nat) (c c2 : Cpu),
      c.mode = CpuMode.BreakOnOutput →
      Day11.run fuel c = some c2 →
      c2.io_out.length ≤ c.io_out.length + 1) := by
  constructor
  · intro c w md raw v hm hw hop hms hraw hres
    have hcmd : getCmd w = some ⟨Op.Out, 1, false⟩ := by
      unfold getCmd
      rw [hop]
      decide
    have hraws : readRaws c.mem (c.ip + 1) 1 = some [raw] := by
      simp [readRaws, hraw, Option.bind_eq_bind, Option.some_bind, Option.pure_def]
    have hresolve : resolveRegs c.mem c.bp [md] [raw] 1 = some [v] := by
      simp [resolveRegs, hres, Option.bind_eq_bind, Option.some_bind, Option.pure_def]
    simp only [Day11.step, hw, hcmd, hms, hraws, Option.bind_eq_bind, Option.some_bind,
      Option.pure_def]
    simp [Day11.execute_cmd, hresolve, hm, Option.bind_eq_bind, Option.some_bind,
      Option.pure_def]
  · intro fuel c c2 hm hrun
    exact d11_runLoop_out_bound fuel { c with state := State.Active } c2 hm hrun

/-- Witness for C8_break_on_output_emits_once on the program [104,7,99]. -/
theorem C8_break_on_output_emits_once_witness :
    Day11.step
      { ip := 0, bp := 0, mem := loadMem [104, 7, 99], io_in := [], io_out := [],
        mode := CpuMode.BreakOnOutput, state := State.Ready } =
      some { ip := 2, bp := 0, mem := loadMem [104, 7, 99], io_in := [], io_out := pushFront [] 7,
             mode := CpuMode.BreakOnOutput, state := State.Ready } ∧
    ({ ip := 2, bp := 0, mem := loadMem [104, 7, 99], io_in := [], io_out := [7],
       mode := CpuMode.BreakOnOutput, state := State.Ready } : Cpu).io_out.length ≤
      ({ ip := 0, bp := 0, mem := loadMem [104, 7, 99], io_in := [], io_out := [],
         mode := CpuMode.BreakOnOutput, state := State.Ready } : Cpu).io_out.length + 1 :=
  ⟨C8_break_on_output_emits_once.1
      { ip := 0, bp := 0, mem := loadMem [104, 7, 99], io_in := [], io_out := [],
        mode := CpuMode.BreakOnOutput, state := State.Ready } 104 RegMode.Imm 7 7
      rfl (by decide) (by decide) (by decide) (by decide) (by decide),
   C8_break_on_output_emits_once.2 2
      { ip := 0, bp := 0, mem := loadMem [104, 7, 99], io_in := [], io_out := [],
        mode := CpuMode.BreakOnOutput, state := State.Ready }
      { ip := 2, bp := 0, mem := loadMem [104, 7, 99], io_in := [], io_out := [7],
        mode := CpuMode.BreakOnOutput, state := State.Ready } rfl rfl⟩

/-- Output effects of one day23 execute_cmd: either the output queue and
mode are unchanged, or (Network mode) one value was pushed and the output
counter stepped 0 to 1 to 2, suspending at the third output, or (Normal
mode) one value was pushed with the mode kept. -/
theorem d23_exec_out (c : Day23.Cpu) (cmd : Cmd) (ms : List RegMode) (raws : List Int)
    (c2 : Day23.Cpu) (h : Day23.execute_cmd c cmd ms raws = some c2) :
    (c2.io_out = c.io_out ∧ c2.mode = c.mode) ∨
    (∃ v k, c.mode = Day23.CpuMode.Network k ∧ c2.io_out = pushFront c.io_out v ∧
      ((k = 0 ∧ c2.mode = Day23.CpuMode.Network 1) ∨
       (k = 1 ∧ c2.mode = Day23.CpuMode.Network 2) ∨
       (k = 2 ∧ c2.mode = Day23.CpuMode.Network 0 ∧ c2.state = State.Ready))) ∨
    (c.mode = Day23.CpuMode.Normal ∧
      ∃ v, c2.io_out = pushFront c.io_out v ∧ c2.mode = Day23.CpuMode.Normal) := by
  obtain ⟨op, n, wr⟩ := cmd
  unfold Day23.execute_cmd at h
  obtain ⟨regs, hregs, h⟩ := Option.bind_eq_some.mp h
  cases op <;> dsimp only at h
  case Add =>
    obtain ⟨mem2, hw, h⟩ := Option.bind_eq_some.mp h
    cases h
    exact Or.inl ⟨rfl, rfl⟩
  case Mul =>
    obtain ⟨mem2, hw, h⟩ := Option.bind_eq_some.mp h
    cases h
    exact Or.inl ⟨rfl, rfl⟩
  case In =>
    split at h
    · split at h
      · obtain ⟨mem2, hw, h⟩ := Option.bind_eq_some.mp h
        cases h
        exact Or.inl ⟨rfl, rfl⟩
      · obtain ⟨mem2, hw, h⟩ := Option.bind_eq_some.mp h
        cases h
        exact Or.inl ⟨rfl, rfl⟩
    · split at h
      · cases h
        exact Or.inl ⟨rfl, rfl⟩
      · obtain ⟨mem2, hw, h⟩ := Option.bind_eq_some.mp h
        cases h
        exact Or.inl ⟨rfl, rfl⟩
  case Out =>
    split at h
    case h_1 hm =>
      cases h
      exact Or.inr (Or.inr ⟨hm, regs.getD 0 0, rfl, hm⟩)
    case h_2 k hm =>
      split at h
      case isTrue hk =>
        cases h
        exact Or.inr (Or.inl ⟨regs.getD 0 0, k, hm, rfl, Or.inl ⟨hk, rfl⟩⟩)
      case isFalse hk =>
        split at h
        case isTrue hk1 =>
          cases h
          exact Or.inr (Or.inl ⟨regs.getD 0 0, k, hm, rfl, Or.inr (Or.inl ⟨hk1, rfl⟩)⟩)
        case isFalse hk1 =>
          split at h
          case isTrue hk2 =>
            cases h
            exact Or.inr (Or.inl ⟨regs.getD 0 0, k, hm, rfl,
              Or.inr (Or.inr ⟨hk2, rfl, rfl⟩)⟩)
          case isFalse hk2 =>
            cases h
  case Jnz =>
    split at h <;> (cases h; exact Or.inl ⟨rfl, rfl⟩)
  case Jz =>
    split at h <;> (cases h; exact Or.inl ⟨rfl, rfl⟩)
  case Lt =>
    obtain ⟨mem2, hw, h⟩ := Option.bind_eq_some.mp h
    cases h
    exact Or.inl ⟨rfl, rfl⟩
  case Cmp =>
    obtain ⟨mem2, hw, h⟩ := Option.bind_eq_some.mp h
    cases h
    exact Or.inl ⟨rfl, rfl⟩
  case AdjBp =>
    cases h
    exact Or.inl ⟨rfl, rfl⟩
  case Hlt =>
    cases h
    exact Or.inl ⟨rfl, rfl⟩

/-- d23_exec_out lifted to one whole day23 step. -/
theorem d23_step_out (c c2 : Day23.Cpu) (h : Day23.step c = some c2) :
    (c2.io_out = c.io_out ∧ c2.mode = c.mode) ∨
    (∃ v k, c.mode = Day23.CpuMode.Network k ∧ c2.io_out = pushFront c.io_out v ∧
      ((k = 0 ∧ c2.mode = Day23.CpuMode.Network 1) ∨
       (k = 1 ∧ c2.mode = Day23.CpuMode.Network 2) ∨
       (k = 2 ∧ c2.mode = Day23.CpuMode.Network 0 ∧ c2.state = State.Ready))) ∨
    (c.mode = Day23.CpuMode.Normal ∧
      ∃ v, c2.io_out = pushFront c.io_out v ∧ c2.mode = Day23.CpuMode.Normal) := by
  unfold Day23.step at h
  obtain ⟨w, hw, h⟩ := Option.bind_eq_some.mp h
  obtain ⟨cmd, hcmd, h⟩ := Option.bind_eq_some.mp h
  obtain ⟨ms, hms, h⟩ := Option.bind_eq_some.mp h
  obtain ⟨raws, hraws, h⟩ := Option.bind_eq_some.mp h
  exact d23_exec_out c cmd ms raws c2 h

/-- The day23 run loop on a Network-mode machine with output counter k
emits at most 3 - k further outputs: the counter reaches 2 after at most
that many and the third output suspends the machine. -/
theorem d23_runLoop_out_bound (fuel : Nat) :
    ∀ (c c2 : Day23.Cpu) (k : Int), c.mode = Day23.CpuMode.Network k →
      0 ≤ k → k ≤ 2 →
      runLoop Day23.step Day23.Cpu.state fuel c = some c2 →
      c2.io_out.length + k.toNat ≤ c.io_out.length + 3 := by
  induction fuel with
  | zero =>
      intro c c2 k hm h0 h2 h
      simp [runLoop] at h
  | succ fuel ih =>
      intro c c2 k hm h0 h2 h
      unfold runLoop at h
      obtain ⟨s, hs, h⟩ := Option.bind_eq_some.mp h
      rcases d23_step_out c s hs with ⟨hsame, hmode⟩ | ⟨v, k2, hk2, hpush, hstep⟩ | ⟨hnorm, _⟩
      · split at h
        · have hb := ih s c2 k (hmode.trans hm) h0 h2 h
          rw [hsame] at hb
          exact hb
        · cases h
          rw [hsame]
          omega
      · rw [hm] at hk2
        cases hk2
        have hlen : s.io_out.length = c.io_out.length + 1 := by
          rw [hpush]
          simp [pushFront]
        rcases hstep with ⟨hk, hmode⟩ | ⟨hk, hmode⟩ | ⟨hk, hmode, hready⟩
        · split at h
          · have hb := ih s c2 1 hmode (by omega) (by omega) h
            rw [hlen] at hb
            subst hk
            omega
          · cases h
            subst hk
            omega
        · split at h
          · have hb := ih s c2 2 hmode (by omega) (by omega) h
            rw [hlen] at hb
            subst hk
            omega
          · cases h
            subst hk
            omega
        · split at h
          case h_1 hactive =>
            exact absurd (hactive.symm.trans hready) (by decide)
          case h_2 =>
            cases h
            subst hk
            omega
      · rw [hm] at hnorm
        cases hnorm

/-- C7: a day23 Network-mode input instruction met with an empty input
queue is not an error: it stores the sentinel -1 at the resolved target,
advances the pointer past the instruction and suspends the machine
(state Ready); both queues and the mode are untouched. -/
theorem C7_network_poll_sentinel (c : Day23.Cpu) (k : Int) (w : Int) (md : RegMode)
    (raw : Int) (mem2 : Nat → Int)
    (hmode : c.mode = Day23.CpuMode.Network k)
    (hw : memRead c.mem c.ip = some w)
    (hop : w.tmod 100 = 3)
    (hms : getMode w 1 = some [md])
    (hraw : memRead c.mem (c.ip + 1) = some raw)
    (hempty : c.io_in = [])
    (hwrite : writeTarget c.mem c.bp md raw (-1) = some mem2) :
    Day23.step c = some { c with mem := mem2, state := State.Ready, ip := c.ip + 2 } := by
  have hcmd : getCmd w = some ⟨Op.In, 1, true⟩ := by
    unfold getCmd
    rw [hop]
    decide
  have hraws : readRaws c.mem (c.ip + 1) 1 = some [raw] := by
    simp [readRaws, hraw, Option.bind_eq_bind, Option.some_bind, Option.pure_def]
  simp only [Day23.step, hw, hcmd, hms, hraws, Option.bind_eq_bind, Option.some_bind,
    Option.pure_def]
  simp [Day23.execute_cmd, resolveRegs, hmode, hempty, hwrite, Option.bind_eq_bind,
    Option.some_bind, Option.pure_def]

/-- Witness for C7_network_poll_sentinel on the program [3,1,99]. -/
theorem C7_network_poll_sentinel_witness :
    Day23.step
      { ip := 0, bp := 0, mem := loadMem [3, 1, 99], io_in := [], io_out := [],
        mode := Day23.CpuMode.Network 0, state := State.Ready } =
      some { ip := 2, bp := 0,
             mem := fun i => if i = usizeOf 1 then -1 else loadMem [3, 1, 99] i,
             io_in := [], io_out := [],
             mode := Day23.CpuMode.Network 0, state := State.Ready } :=
  C7_network_poll_sentinel
    { ip := 0, bp := 0, mem := loadMem [3, 1, 99], io_in := [], io_out := [],
      mode := Day23.CpuMode.Network 0, state := State.Ready } 0 3 RegMode.Pos 1
    (fun i => if i = usizeOf 1 then -1 else loadMem [3, 1, 99] i)
    rfl (by decide) (by decide) (by decide) (by decide) rfl rfl

/-- C4: after a nic's run in the network loop, a nonempty output queue is
drained as one whole triple (dest, x, y): a triple addressed to 255
replaces the NAT-held packet and is delivered to no machine, any other
triple appends x then y, in that order, to the destination machine's input
queue; and a Network-mode run that starts with an empty output queue can
leave at most one triple (three values) in it, because the machine
suspends on every third output. -/
theorem C4_network_drain_triples :
    (∀ (fuel : Nat) (acc : Day23.PassAcc) (i : Nat) (nic ran : Day23.Cpu) (dest x y : Int),
      acc.nics.get? i = some nic →
      Day23.run fuel nic = some ran →
      ran.io_out = [dest, x, y] →
      (dest = 255 →
        Day23.serviceNic fuel acc i =
          some { nics := acc.nics.set i { ran with io_out := [] },
                 nat_packet := (x, y), is_idle := false }) ∧
      (dest ≠ 255 →
        ∀ tgt, (acc.nics.set i { ran with io_out := [] }).get? (usizeOf dest) = some tgt →
          Day23.serviceNic fuel acc i =
            some { nics := (acc.nics.set i { ran with io_out := [] }).set (usizeOf dest)
                     { tgt with io_in := pushAll tgt.io_in [x, y] },
                   nat_packet := acc.nat_packet, is_idle := false })) ∧
    (∀ (fuel : Nat) (c c2 : Day23.Cpu),
      c.mode = Day23.CpuMode.Network 0 → c.io_out = [] →
      Day23.run fuel c = some c2 → c2.io_out.length ≤ 3) := by
  constructor
  · intro fuel acc i nic ran dest x y hget hrun hout
    constructor
    · intro h255
      subst h255
      simp only [Day23.serviceNic, hget, hrun, hout, Option.bind_eq_bind, Option.some_bind,
        Option.pure_def, popBack, List.set_set, reduceIte]
    · intro hne tgt htgt
      simp only [Day23.serviceNic, hget, hrun, hout, Option.bind_eq_bind, Option.some_bind,
        Option.pure_def, popBack, List.set_set, if_neg hne, htgt]
      rfl
  · intro fuel c c2 hm hout hrun
    have hb := d23_runLoop_out_bound fuel { c with state := State.Active } c2 0 hm
      (by omega) (by omega) hrun
    rw [hout] at hb
    simpa using hb

/-- Witness for C4_network_drain_triples: a nic that outputs the triple
(255, 7, 9) feeds the NAT, one that outputs (1, 7, 9) delivers x then y to
machine 1, and a Network run from an empty output queue emits at most 3. -/
theorem C4_network_drain_triples_witness :
    (Day23.serviceNic 4
      { nics := [{ ip := 0, bp := 0, mem := loadMem [104, 255, 104, 7, 104, 9, 99],
                   io_in := [], io_out := [], mode := Day23.CpuMode.Network 0,
                   state := State.Ready }],
        nat_packet := (0, 0), is_idle := true } 0 =
      some { nics := [{ ip := 6, bp := 0, mem := loadMem [104, 255, 104, 7, 104, 9, 99],
                        io_in := [], io_out := [], mode := Day23.CpuMode.Network 0,
                        state := State.Ready }],
             nat_packet := (7, 9), is_idle := false }) ∧
    (Day23.serviceNic 4
      { nics := [{ ip := 0, bp := 0, mem := loadMem [104, 1, 104, 7, 104, 9, 99],
                   io_in := [], io_out := [], mode := Day23.CpuMode.Network 0,
                   state := State.Ready },
                 { ip := 0, bp := 0, mem := loadMem [99], io_in := [], io_out := [],
                   mode := Day23.CpuMode.Network 0, state := State.Halted }],
        nat_packet := (0, 0), is_idle := true } 0 =
      some { nics := [{ ip := 6, bp := 0, mem := loadMem [104, 1, 104, 7, 104, 9, 99],
                        io_in := [], io_out := [], mode := Day23.CpuMode.Network 0,
                        state := State.Ready },
                      { ip := 0, bp := 0, mem := loadMem [99], io_in := pushAll [] [7, 9],
                        io_out := [], mode := Day23.CpuMode.Network 0,
                        state := State.Halted }],
             nat_packet := (0, 0), is_idle := false }) ∧
    ([(255 : Int), 7, 9].length ≤ 3) := by
  refine ⟨?_, ?_, ?_⟩
  · exact (C4_network_drain_triples.1 4
      { nics := [{ ip := 0, bp := 0, mem := loadMem [104, 255, 104, 7, 104, 9, 99],
                   io_in := [], io_out := [], mode := Day23.CpuMode.Network 0,
                   state := State.Ready }],
        nat_packet := (0, 0), is_idle := true } 0
      { ip := 0, bp := 0, mem := loadMem [104, 255, 104, 7, 104, 9, 99],
        io_in := [], io_out := [], mode := Day23.CpuMode.Network 0, state := State.Ready }
      { ip := 6, bp := 0, mem := loadMem [104, 255, 104, 7, 104, 9, 99],
        io_in := [], io_out := [255, 7, 9], mode := Day23.CpuMode.Network 0,
        state := State.Ready } 255 7 9 rfl rfl rfl).1 rfl
  · exact (C4_network_drain_triples.1 4
      { nics := [{ ip := 0, bp := 0, mem := loadMem [104, 1, 104, 7, 104, 9, 99],
                   io_in := [], io_out := [], mode := Day23.CpuMode.Network 0,
                   state := State.Ready },
                 { ip := 0, bp := 0, mem := loadMem [99], io_in := [], io_out := [],
                   mode := Day23.CpuMode.Network 0, state := State.Halted }],
        nat_packet := (0, 0), is_idle := true } 0
      { ip := 0, bp := 0, mem := loadMem [104, 1, 104, 7, 104, 9, 99],
        io_in := [], io_out := [], mode := Day23.CpuMode.Network 0, state := State.Ready }
      { ip := 6, bp := 0, mem := loadMem [104, 1, 104, 7, 104, 9, 99],
        io_in := [], io_out := [1, 7, 9], mode := Day23.CpuMode.Network 0,
        state := State.Ready } 1 7 9 rfl rfl rfl).2 (by decide)
      { ip := 0, bp := 0, mem := loadMem [99], io_in := [], io_out := [],
        mode := Day23.CpuMode.Network 0, state := State.Halted } rfl
  · exact C4_network_drain_triples.2 4
      { ip := 0, bp := 0, mem := loadMem [104, 255, 104, 7, 104, 9, 99],
        io_in := [], io_out := [], mode := Day23.CpuMode.Network 0, state := State.Ready }
      { ip := 6, bp := 0, mem := loadMem [104, 255, 104, 7, 104, 9, 99],
        io_in := [], io_out := [255, 7, 9], mode := Day23.CpuMode.Network 0,
        state := State.Ready } rfl rfl rfl

/-- Servicing one nic never changes the number of nics. -/
theorem d23_serviceNic_len (fuel : Nat) (acc acc2 : Day23.PassAcc) (i : Nat)
    (h : Day23.serviceNic fuel acc i = some acc2) :
    acc2.nics.length = acc.nics.length := by
  unfold Day23.serviceNic at h
  obtain ⟨nic, hget, h⟩ := Option.bind_eq_some.mp h
  obtain ⟨ran, hrun, h⟩ := Option.bind_eq_some.mp h
  split at h
  case h_1 hmatch =>
    cases h
    simp
  case h_2 dest q1 hmatch =>
    obtain ⟨xq, hx, h⟩ := Option.bind_eq_some.mp h
    obtain ⟨x, q2⟩ := xq
    obtain ⟨yq, hy, h⟩ := Option.bind_eq_some.mp h
    obtain ⟨y, q3⟩ := yq
    dsimp only at h
    by_cases hdest : dest = 255
    · rw [if_pos hdest] at h
      cases h
      simp
    · rw [if_neg hdest] at h
      obtain ⟨tgt, htgt, h⟩ := Option.bind_eq_some.mp h
      cases h
      simp

/-- A whole servicing pass never changes the number of nics. -/
theorem d23_foldl_service_len (fuel : Nat) (l : List Nat) :
    ∀ acc acc2 : Day23.PassAcc,
      List.foldlM (Day23.serviceNic fuel) acc l = some acc2 →
      acc2.nics.length = acc.nics.length := by
  induction l with
  | nil =>
      intro acc acc2 h
      cases h
      rfl
  | cons i rest ih =>
      intro acc acc2 h
      rw [List.foldlM_cons] at h
      obtain ⟨mid, hmid, h⟩ := Option.bind_eq_some.mp h
      exact (ih mid acc2 h).trans (d23_serviceNic_len fuel acc mid i hmid)

/-- C3 (amended): whenever the pass over all 50 nics leaves the idle flag
set, the NAT packet (x, y) is pushed (x then y) onto machine 0's input
queue, and the round terminates exactly when that packet equals the
previous NAT delivery in BOTH coordinates (run_network compares the whole
pair); on termination the reported value is the packet's secondary value
y; otherwise the packet is recorded as the new previous delivery. -/
theorem C3_nat_idle_delivery (fuel : Nat) (s : Day23.NetState) (acc : Day23.PassAcc)
    (hpass : Day23.netPass fuel s = some acc)
    (hlen : 0 < s.nics.length) :
    ∃ nic0, acc.nics.get? 0 = some nic0 ∧
      (acc.is_idle = true → acc.nat_packet = s.prev_nat →
        Day23.netRound fuel s = some (Sum.inl acc.nat_packet.2)) ∧
      (acc.is_idle = true → acc.nat_packet ≠ s.prev_nat →
        Day23.netRound fuel s = some (Sum.inr
          { nics := acc.nics.set 0
              { nic0 with io_in := pushAll nic0.io_in [acc.nat_packet.1, acc.nat_packet.2] },
            nat_packet := acc.nat_packet, prev_nat := acc.nat_packet, is_idle := true })) ∧
      (acc.is_idle = false →
        Day23.netRound fuel s = some (Sum.inr
          { nics := acc.nics, nat_packet := acc.nat_packet,
            prev_nat := s.prev_nat, is_idle := true })) ∧
      (∀ r, Day23.netRound fuel s = some r →
        (Day23.terminates r = true ↔ acc.is_idle = true ∧ acc.nat_packet = s.prev_nat)) := by
  have hlen2 : 0 < acc.nics.length := by
    have := d23_foldl_service_len fuel (List.range 50)
      { nics := s.nics, nat_packet := s.nat_packet, is_idle := s.is_idle } acc hpass
    simpa [this]
  have hget := List.get?_eq_get hlen2
  refine ⟨acc.nics.get ⟨0, hlen2⟩, hget, ?_, ?_, ?_, ?_⟩
  · intro hidle heq
    simp only [Day23.netRound, hpass, hidle, hget, heq, Option.bind_eq_bind, Option.some_bind,
      Option.pure_def, if_pos, reduceIte]
  · intro hidle hne
    simp only [Day23.netRound, hpass, hidle, hget, Option.bind_eq_bind, Option.some_bind,
      Option.pure_def, if_neg hne, reduceIte, pushAll, List.foldl]
  · intro hidle
    simp only [Day23.netRound, hpass, hidle, Option.bind_eq_bind, Option.some_bind,
      Option.pure_def, Bool.false_eq_true, reduceIte]
  · intro r hr
    by_cases hidle : acc.is_idle = true
    · by_cases heq : acc.nat_packet = s.prev_nat
      · simp only [Day23.netRound, hpass, hidle, hget, heq, Option.bind_eq_bind,
          Option.some_bind, Option.pure_def, reduceIte] at hr
        cases hr
        simp [Day23.terminates, hidle, heq]
      · simp only [Day23.netRound, hpass, hidle, hget, Option.bind_eq_bind,
          Option.some_bind, Option.pure_def, if_neg heq, reduceIte] at hr
        cases hr
        simp [Day23.terminates, heq]
    · have hidle2 : acc.is_idle = false := by
        cases hb : acc.is_idle
        · rfl
        · exact absurd hb hidle
      simp only [Day23.netRound, hpass, hidle2, Option.bind_eq_bind, Option.some_bind,
        Option.pure_def, Bool.false_eq_true, reduceIte] at hr
      cases hr
      simp [Day23.terminates, hidle2]

/-- Witness for C3_nat_idle_delivery at the concrete idle network natCex:
the round delivers (1, 5) to machine 0 and continues (no termination,
since the previous delivery was (2, 5)). -/
theorem C3_nat_idle_delivery_witness :
    Day23.netRound 2 Day23.natCex = some (Sum.inr
      { nics := (List.replicate 50 { Day23.haltNic with state := State.Halted }).set 0
          { Day23.haltNic with state := State.Halted, io_in := pushAll [] [1, 5] },
        nat_packet := (1, 5), prev_nat := (1, 5), is_idle := true }) := by
  obtain ⟨nic0, hget, h1, h2, h3, h4⟩ :=
    C3_nat_idle_delivery 2 Day23.natCex
      { nics := List.replicate 50 { Day23.haltNic with state := State.Halted },
        nat_packet := (1, 5), is_idle := true } rfl (by decide)
  have hn : nic0 = { Day23.haltNic with state := State.Halted } := by
    have h0 : some nic0 = some { Day23.haltNic with state := State.Halted } :=
      hget.symm.trans (by rfl)
    injection h0
  rw [hn] at h2
  exact h2 rfl (by decide)

/-- Resolving k slots ignores a mode overwrite at any index at or past k:
the resolve loop of execute_cmd only reads mode slots below k. -/
theorem resolveRegs_set_high (mem : Nat → Int) (bp : Int) (md2 : RegMode) :
    ∀ (k j : Nat) (ms : List RegMode) (raws : List Int), k ≤ j →
      resolveRegs mem bp (ms.set j md2) raws k = resolveRegs mem bp ms raws k := by
  intro k
  induction k with
  | zero =>
      intro j ms raws hkj
      simp [resolveRegs]
  | succ k ih =>
      intro j ms raws hkj
      cases ms with
      | nil => simp [resolveRegs]
      | cons m ms2 =>
          cases j with
          | zero => omega
          | succ j2 =>
              cases raws with
              | nil => simp [resolveRegs]
              | cons r raws2 =>
                  show resolveRegs mem bp (m :: ms2.set j2 md2) (r :: raws2) (k + 1) = _
                  unfold resolveRegs
                  rw [ih j2 ms2 raws2 (by omega)]

/-- Reading a mode slot after overwriting an Imm slot with Pos gives a
mode with the same writeTarget behaviour: Pos and Imm targets both store
at the raw address. -/
theorem writeTarget_set_imm (mem : Nat → Int) (bp : Int) (ms : List RegMode) (j i : Nat)
    (d : RegMode) (raw v : Int) (h : ms.get? j = some RegMode.Imm) :
    writeTarget mem bp ((ms.set j RegMode.Pos).getD i d) raw v =
    writeTarget mem bp (ms.getD i d) raw v := by
  by_cases hij : i = j
  · subst hij
    have hlt : i < ms.length := by
      by_contra hge
      rw [List.get?_eq_none.mpr (by omega)] at h
      exact Option.noConfusion h
    have h1 : (ms.set i RegMode.Pos).getD i d = RegMode.Pos := by
      simp [List.getD_eq_getElem?_getD, List.getElem?_set, hlt]
    have h2 : ms.getD i d = RegMode.Imm := by
      rw [List.getD_eq_getElem?_getD, ← List.get?_eq_getElem?, h]
      rfl
    rw [h1, h2]
    rfl
  · have hne : (ms.set j RegMode.Pos).getD i d = ms.getD i d := by
      rw [List.getD_eq_getElem?_getD, List.getD_eq_getElem?_getD,
        List.getElem?_set_ne (fun hj => hij hj.symm)]
    rw [hne]

/-- C10: a write instruction whose final (write-target) slot carries
immediate mode does not fail and behaves exactly as position mode: the
write-target store treats Imm like Pos (the address is raw itself), and
day09 execute_cmd gives identical results when the target slot's Imm mode
digit is replaced by Pos. -/
theorem C10_imm_write_target_like_position :
    (∀ (mem : Nat → Int) (bp raw v : Int),
      writeTarget mem bp RegMode.Imm raw v = writeTarget mem bp RegMode.Pos raw v ∧
      writeTarget mem bp RegMode.Imm raw v = memWrite mem (usizeOf raw) v) ∧
    (∀ (c : Cpu) (cmd : Cmd) (ms : List RegMode) (raws : List Int),
      cmd.writes = true →
      ms.get? (cmd.n_operands - 1) = some RegMode.Imm →
      Day09.execute_cmd c cmd ms raws =
        Day09.execute_cmd c cmd (ms.set (cmd.n_operands - 1) RegMode.Pos) raws) := by
  constructor
  · intro mem bp raw v
    exact ⟨rfl, rfl⟩
  · intro c cmd ms raws hw himm
    obtain ⟨op, n, wr⟩ := cmd
    dsimp at hw himm
    subst hw
    have hres := resolveRegs_set_high c.mem c.bp RegMode.Pos (n - 1) (n - 1) ms raws
      (Nat.le_refl _)
    have hwt : ∀ (i : Nat) (d : RegMode) (raw v : Int),
        writeTarget c.mem c.bp ((ms.set (n - 1) RegMode.Pos).getD i d) raw v =
        writeTarget c.mem c.bp (ms.getD i d) raw v :=
      fun i d raw v => writeTarget_set_imm c.mem c.bp ms (n - 1) i d raw v himm
    cases op <;>
      simp only [Day09.execute_cmd, reduceIte, hres, hwt]

/-- Witness for C10_imm_write_target_like_position: an immediate-mode
write target on an add instruction (1101 pattern). -/
theorem C10_imm_write_target_like_position_witness :
    (writeTarget (loadMem [1101, 2, 3, 5, 99]) 0 RegMode.Imm 5 5 =
       writeTarget (loadMem [1101, 2, 3, 5, 99]) 0 RegMode.Pos 5 5 ∧
     writeTarget (loadMem [1101, 2, 3, 5, 99]) 0 RegMode.Imm 5 5 =
       memWrite (loadMem [1101, 2, 3, 5, 99]) (usizeOf 5) 5) ∧
    Day09.execute_cmd
      { ip := 4, bp := 0, mem := loadMem [1101, 2, 3, 5, 99], io_in := [], io_out := [],
        mode := CpuMode.Normal, state := State.Active }
      ⟨Op.Add, 3, true⟩ [RegMode.Imm, RegMode.Imm, RegMode.Imm] [2, 3, 5] =
    Day09.execute_cmd
      { ip := 4, bp := 0, mem := loadMem [1101, 2, 3, 5, 99], io_in := [], io_out := [],
        mode := CpuMode.Normal, state := State.Active }
      ⟨Op.Add, 3, true⟩ ([RegMode.Imm, RegMode.Imm, RegMode.Imm].set 2 RegMode.Pos) [2, 3, 5] :=
  ⟨C10_imm_write_target_like_position.1 (loadMem [1101, 2, 3, 5, 99]) 0 5 5,
   C10_imm_write_target_like_position.2
     { ip := 4, bp := 0, mem := loadMem [1101, 2, 3, 5, 99], io_in := [], io_out := [],
       mode := CpuMode.Normal, state := State.Active }
     ⟨Op.Add, 3, true⟩ [RegMode.Imm, RegMode.Imm, RegMode.Imm] [2, 3, 5] rfl (by decide)⟩

/-- The loop body of the resolve loop agrees with the specification's
per-mode value table. -/
theorem resolveRead_eq_spec (mem : Nat → Int) (bp : Int) (md : RegMode) (raw : Int) :
    resolveRead mem bp md raw = specResolveValue mem bp md raw := by
  cases md <;> rfl

/-- Characterization of the resolve loop: slots below the boundary hold
the specification's resolved values, slots at or above it (the write
target) keep the raw operand. -/
theorem resolveRegs_spec (mem : Nat → Int) (bp : Int) :
    ∀ (k : Nat) (ms : List RegMode) (raws regs : List Int),
      resolveRegs mem bp ms raws k = some regs →
      regs.length = raws.length ∧
      (∀ i, i < k →
        ∃ md raw v, ms.get? i = some md ∧ raws.get? i = some raw ∧
          specResolveValue mem bp md raw = some v ∧ regs.get? i = some v) ∧
      (∀ i, k ≤ i → regs.get? i = raws.get? i) := by
  intro k
  induction k with
  | zero =>
      intro ms raws regs h
      have hr : regs = raws := by
        cases ms with
        | nil => simpa [resolveRegs] using h.symm
        | cons m ms2 => simpa [resolveRegs] using h.symm
      subst hr
      exact ⟨rfl, fun i hi => absurd hi (by omega), fun i _ => rfl⟩
  | succ k ih =>
      intro ms raws regs h
      cases ms with
      | nil => simp [resolveRegs] at h
      | cons m ms2 =>
          cases raws with
          | nil => simp [resolveRegs] at h
          | cons r raws2 =>
              unfold resolveRegs at h
              obtain ⟨v, hv, h⟩ := Option.bind_eq_some.mp h
              obtain ⟨rest, hrest, h⟩ := Option.bind_eq_some.mp h
              cases h
              obtain ⟨hlen, hlo, hhi⟩ := ih ms2 raws2 rest hrest
              refine ⟨by simpa using hlen, ?_, ?_⟩
              · intro i hi
                cases i with
                | zero =>
                    exact ⟨m, r, v, rfl, rfl, (resolveRead_eq_spec mem bp m r).symm.trans hv,
                      rfl⟩
                | succ i2 =>
                    obtain ⟨md, raw, v2, h1, h2, h3, h4⟩ := hlo i2 (by omega)
                    exact ⟨md, raw, v2, h1, h2, h3, h4⟩
              · intro i hik
                cases i with
                | zero => omega
                | succ i2 => exact hhi i2 (by omega)

/-- C5: operand resolution of the day09 machine.  Read slots resolve to
values exactly per the specification table (position reads tape[raw],
immediate is raw, relative reads tape[base + raw]); the slots at or past
the boundary — the write target — keep their raw operand, never
dereferenced; the write-target store uses the specification's address
(raw in position mode, base + raw in relative mode); and every successful
write-instruction execution (opcodes 1, 2, 3, 7, 8) produces its new tape
through exactly that store, applied to the target slot's unresolved
operand. -/
theorem C5_operand_resolution :
    (∀ (mem : Nat → Int) (bp : Int) (md : RegMode) (raw : Int),
      resolveRead mem bp md raw = specResolveValue mem bp md raw) ∧
    (∀ (mem : Nat → Int) (bp : Int) (k : Nat) (ms : List RegMode) (raws regs : List Int),
      resolveRegs mem bp ms raws k = some regs →
      (∀ i, i < k →
        ∃ md raw v, ms.get? i = some md ∧ raws.get? i = some raw ∧
          specResolveValue mem bp md raw = some v ∧ regs.get? i = some v) ∧
      (∀ i, k ≤ i → regs.get? i = raws.get? i)) ∧
    (∀ (mem : Nat → Int) (bp : Int) (md : RegMode) (raw v a : Int),
      specWriteAddr bp md raw = some a →
      writeTarget mem bp md raw v = memWrite mem (usizeOf a) v) ∧
    (∀ (c : Cpu) (w : Int) (cmd : Cmd) (ms : List RegMode) (raws : List Int) (c2 : Cpu),
      getCmd w = some cmd → cmd.writes = true →
      Day09.execute_cmd c cmd ms raws = some c2 →
      ∃ regs v mem2,
        resolveRegs c.mem c.bp ms raws (cmd.n_operands - 1) = some regs ∧
        writeTarget c.mem c.bp
          (ms.getD (if cmd.op = Op.In then 0 else 2) RegMode.Pos)
          (regs.getD (if cmd.op = Op.In then 0 else 2) 0) v = some mem2 ∧
        c2.mem = mem2) := by
  refine ⟨resolveRead_eq_spec, ?_, ?_, ?_⟩
  · intro mem bp k ms raws regs h
    exact (resolveRegs_spec mem bp k ms raws regs h).2
  · intro mem bp md raw v a hs
    cases md
    case Pos =>
      cases hs
      rfl
    case Imm => exact Option.noConfusion hs
    case Rel =>
      cases hs
      rfl
  · intro c w cmd ms raws c2 hcmd hw hexec
    unfold getCmd at hcmd
    split at hcmd <;>
      first
      | exact Option.noConfusion hcmd
      | (cases hcmd
         first
         | exact absurd hw (by decide)
         | (unfold Day09.execute_cmd at hexec
            obtain ⟨regs, hregs, hexec⟩ := Option.bind_eq_some.mp hexec
            first
            | (obtain ⟨mem2, hwrite, hexec⟩ := Option.bind_eq_some.mp hexec
               cases hexec
               exact ⟨regs, _, mem2, hregs, hwrite, rfl⟩)
            | (obtain ⟨xp, hpop, hexec⟩ := Option.bind_eq_some.mp hexec
               obtain ⟨x, rest⟩ := xp
               obtain ⟨mem2, hwrite, hexec⟩ := Option.bind_eq_some.mp hexec
               cases hexec
               exact ⟨regs, x, mem2, hregs, hwrite, rfl⟩)))

/-- Witness for C5_operand_resolution: a resolve of [Pos, Imm, target]
slots, a relative-mode store address, and an immediate add execution. -/
theorem C5_operand_resolution_witness :
    ((∀ i, i < 2 →
        ∃ md raw v, [RegMode.Pos, RegMode.Imm, RegMode.Pos].get? i = some md ∧
          [(1 : Int), 2, 0].get? i = some raw ∧
          specResolveValue (loadMem [5, 6, 7]) 0 md raw = some v ∧
          [(6 : Int), 2, 0].get? i = some v) ∧
      (∀ i, 2 ≤ i → [(6 : Int), 2, 0].get? i = [(1 : Int), 2, 0].get? i)) ∧
    (writeTarget (loadMem [5, 6, 7]) 3 RegMode.Rel 4 9 =
      memWrite (loadMem [5, 6, 7]) (usizeOf 7) 9) ∧
    (∃ regs v mem2,
      resolveRegs (loadMem [1101, 2, 3, 5, 99]) 0
        [RegMode.Imm, RegMode.Imm, RegMode.Pos] [2, 3, 5] 2 = some regs ∧
      writeTarget (loadMem [1101, 2, 3, 5, 99]) 0
        ([RegMode.Imm, RegMode.Imm, RegMode.Pos].getD 2 RegMode.Pos)
        (regs.getD 2 0) v = some mem2 ∧
      (fun i => if i = usizeOf 5 then 5 else loadMem [1101, 2, 3, 5, 99] i) = mem2) :=
  ⟨C5_operand_resolution.2.1 (loadMem [5, 6, 7]) 0 2
      [RegMode.Pos, RegMode.Imm, RegMode.Pos] [1, 2, 0] [6, 2, 0] (by decide),
   C5_operand_resolution.2.2.1 (loadMem [5, 6, 7]) 3 RegMode.Rel 4 9 7 (by decide),
   C5_operand_resolution.2.2.2
     { ip := 4, bp := 0, mem := loadMem [1101, 2, 3, 5, 99], io_in := [], io_out := [],
       mode := CpuMode.Normal, state := State.Active } 1101 ⟨Op.Add, 3, true⟩
     [RegMode.Imm, RegMode.Imm, RegMode.Pos] [2, 3, 5]
     { ip := 4, bp := 0,
       mem := fun i => if i = usizeOf 5 then 5 else loadMem [1101, 2, 3, 5, 99] i,
       io_in := [], io_out := [], mode := CpuMode.Normal, state := State.Active }
     (by decide) rfl rfl⟩

/-- Truncated division of a nonnegative Int by decimal powers chains the
way the get_mode loop iterates it. -/
theorem tdiv_ten_chain (d : Int) (hd : 0 ≤ d) (i : Nat) :
    (d.tdiv 10).tdiv (10 ^ i) = d.tdiv (10 ^ (i + 1)) := by
  obtain ⟨m, rfl⟩ := Int.eq_ofNat_of_zero_le hd
  have hpow : ∀ j : Nat, ((10 : Int) ^ j) = ((10 ^ j : Nat) : Int) := by
    intro j
    push_cast
    ring
  have h1 : ((m : Int)).tdiv 10 = ((m / 10 : Nat) : Int) := rfl
  rw [h1, hpow i, hpow (i + 1)]
  have h2 : ((m / 10 : Nat) : Int).tdiv (((10 ^ i : Nat) : Int)) =
      ((m / 10 / 10 ^ i : Nat) : Int) := rfl
  have h3 : ((m : Int)).tdiv (((10 ^ (i + 1) : Nat) : Int)) =
      ((m / 10 ^ (i + 1) : Nat) : Int) := rfl
  rw [h2, h3]
  congr 1
  rw [Nat.div_div_eq_div_mul, pow_succ, Nat.mul_comm]

/-- The get_mode digit loop computes, at slot i, the i-th least
significant decimal digit of the digit word. -/
theorem getModesAux_spec :
    ∀ (n : Nat) (d : Int), 0 ≤ d →
      ∀ ms, getModesAux d n = some ms →
        ms.length = n ∧
        ∀ i, i < n → ms.get? i = decodeMode ((d.tdiv (10 ^ i)).tmod 10) := by
  intro n
  induction n with
  | zero =>
      intro d hd ms h
      cases h
      exact ⟨rfl, fun i hi => absurd hi (by omega)⟩
  | succ n ih =>
      intro d hd ms h
      unfold getModesAux at h
      obtain ⟨md, hmd, h⟩ := Option.bind_eq_some.mp h
      obtain ⟨rest, hrest, h⟩ := Option.bind_eq_some.mp h
      cases h
      have hd10 : (0 : Int) ≤ d.tdiv 10 := Int.tdiv_nonneg hd (by omega)
      obtain ⟨hlen, hdig⟩ := ih (d.tdiv 10) hd10 rest hrest
      refine ⟨by simpa using hlen, ?_⟩
      intro i hi
      cases i with
      | zero =>
          have h1 : d.tdiv (10 ^ 0) = d := by
            obtain ⟨m, rfl⟩ := Int.eq_ofNat_of_zero_le hd
            have h3 : ((10 : Int) ^ 0) = ((10 ^ 0 : Nat) : Int) := by
              push_cast
              try ring
            have h2 : ((m : Int)).tdiv (((10 ^ 0 : Nat) : Int)) =
                ((m / 10 ^ 0 : Nat) : Int) := rfl
            rw [h3, h2]
            simp
          rw [h1, hmd]
          rfl
      | succ i2 =>
          have h2 := hdig i2 (by omega)
          rw [tdiv_ten_chain d hd i2] at h2
          exact h2

/-- C6: the decoder.  getCmd succeeds exactly on the ten-entry opcode
table read from w tmod 100 (Rust % semantics); any other word is fatal
(the whole step fails); get_mode assigns slot i the i-th least significant
digit of w / 100 with 0, 1, 2 as position, immediate, relative; and a
digit position beyond the digits present (w / 100 < 10 ^ i) defaults to
position mode. -/
theorem C6_decoder_table :
    (∀ w : Int, (getCmd w).isSome = true ↔
      (w.tmod 100 = 1 ∨ w.tmod 100 = 2 ∨ w.tmod 100 = 3 ∨ w.tmod 100 = 4 ∨
       w.tmod 100 = 5 ∨ w.tmod 100 = 6 ∨ w.tmod 100 = 7 ∨ w.tmod 100 = 8 ∨
       w.tmod 100 = 9 ∨ w.tmod 100 = 99)) ∧
    (∀ (c : Cpu) (w : Int), memRead c.mem c.ip = some w → getCmd w = none →
      Day09.step c = none) ∧
    (∀ (w : Int) (n : Nat) (ms : List RegMode), 0 ≤ w → getMode w n = some ms →
      ms.length = n ∧
      ∀ i, i < n → ms.get? i = decodeMode (((w.tdiv 100).tdiv (10 ^ i)).tmod 10)) ∧
    (∀ (w : Int) (n : Nat) (ms : List RegMode) (i : Nat), 0 ≤ w → getMode w n = some ms →
      i < n → w.tdiv 100 < 10 ^ i → ms.get? i = some RegMode.Pos) := by
  have hmodes : ∀ (w : Int) (n : Nat) (ms : List RegMode), 0 ≤ w → getMode w n = some ms →
      ms.length = n ∧
      ∀ i, i < n → ms.get? i = decodeMode (((w.tdiv 100).tdiv (10 ^ i)).tmod 10) := by
    intro w n ms hw h
    exact getModesAux_spec n (w.tdiv 100) (Int.tdiv_nonneg hw (by omega)) ms h
  refine ⟨?_, ?_, hmodes, ?_⟩
  · intro w
    unfold getCmd
    split <;> simp_all
  · intro c w hw hnone
    simp [Day09.step, hw, hnone, Option.bind_eq_bind, Option.some_bind]
  · intro w n ms i hw h hi hsmall
    have hdig := (hmodes w n ms hw h).2 i hi
    have hzero : (w.tdiv 100).tdiv (10 ^ i) = 0 := by
      have hd : (0 : Int) ≤ w.tdiv 100 := Int.tdiv_nonneg hw (by omega)
      obtain ⟨m, hm⟩ := Int.eq_ofNat_of_zero_le hd
      have hpow : ((10 : Int) ^ i) = ((10 ^ i : Nat) : Int) := by
        push_cast
        ring
      have hkey : ((m : Int)).tdiv (((10 ^ i : Nat) : Int)) =
          ((m / 10 ^ i : Nat) : Int) := rfl
      have hlt : m < 10 ^ i := by
        have hs2 := hsmall
        rw [hm, hpow] at hs2
        exact_mod_cast hs2
      rw [hm, hpow, hkey, Nat.div_eq_of_lt hlt]
      rfl
    rw [hdig, hzero]
    rfl

/-- Witness for C6_decoder_table: opcode 55 is fatal, instruction 21002
decodes modes [Pos, Imm, Rel], and the missing third digit of 102
defaults to position mode. -/
theorem C6_decoder_table_witness :
    Day09.step
      { ip := 0, bp := 0, mem := loadMem [55], io_in := [], io_out := [],
        mode := CpuMode.Normal, state := State.Active } = none ∧
    ([RegMode.Pos, RegMode.Imm, RegMode.Rel].length = 3 ∧
      ∀ i, i < 3 → [RegMode.Pos, RegMode.Imm, RegMode.Rel].get? i =
        decodeMode ((((21002 : Int).tdiv 100).tdiv (10 ^ i)).tmod 10)) ∧
    [RegMode.Imm, RegMode.Pos, RegMode.Pos].get? 1 = some RegMode.Pos :=
  ⟨C6_decoder_table.2.1
      { ip := 0, bp := 0, mem := loadMem [55], io_in := [], io_out := [],
        mode := CpuMode.Normal, state := State.Active } 55 (by decide) (by decide),
   C6_decoder_table.2.2.1 21002 3 [RegMode.Pos, RegMode.Imm, RegMode.Rel]
     (by decide) (by decide),
   C6_decoder_table.2.2.2 102 3 [RegMode.Imm, RegMode.Pos, RegMode.Pos] 1
     (by decide) (by decide) (by decide) (by decide)⟩

end AoC2019
